import Mathlib

set_option maxRecDepth 4096

namespace FrameForge

/-- JS-style whitespace test used by `String.prototype.trim` (restricted to the
whitespace characters that occur in this code base's strings). -/
def isWSChar (c : Char) : Bool :=
  c = ' ' || c = '\n' || c = '\t' || c = '\r'

/-- Drop whitespace from the front of a character list. -/
def trimLeftC (l : List Char) : List Char := l.dropWhile isWSChar

/-- Drop whitespace from the back of a character list. -/
def trimRightC (l : List Char) : List Char := (l.reverse.dropWhile isWSChar).reverse

/-- Both-ends trim on character lists, modelling JS `.trim()`. -/
def trimChars (l : List Char) : List Char := trimRightC (trimLeftC l)

/-- String-level trim, modelling JS `.trim()`. -/
def trimStr (s : String) : String := String.mk (trimChars s.data)

/-- Boolean substring test on character lists, modelling JS `.includes`. -/
def containsSubC (n : List Char) : List Char → Bool
  | [] => n.isEmpty
  | c :: t => n.isPrefixOf (c :: t) || containsSubC n t

/-- Boolean substring test on strings, modelling JS `String.prototype.includes`. -/
def hasSub (needle hay : String) : Bool := containsSubC needle.data hay.data

/-- Prefix test on strings, modelling JS `String.prototype.startsWith`. -/
def startsWithStr (p s : String) : Bool := p.data.isPrefixOf s.data

/-- ASCII lower-casing of a string, modelling JS `String.prototype.toLowerCase`
on the ASCII texts this code base compares. -/
def lowerStr (s : String) : String := String.mk (s.data.map Char.toLower)

/-- Remove one leading newline, used for the optional `\n` consumed by the
fence-stripping regexes. -/
def dropNl (l : List Char) : List Char :=
  match l with
  | [] => []
  | c :: r => if c = '\n' then r else c :: r

/-- Fuel-indexed left-to-right scanner removing every non-overlapping
occurrence of the token `p :: ps` together with one optional newline after it,
modelling a JS global regex replace by the empty string. -/
def stripTokF (p : Char) (ps : List Char) : Nat → List Char → List Char
  | _, [] => []
  | 0, l => l
  | fuel + 1, c :: rest =>
    if (c :: rest).take (ps.length + 1) = p :: ps then
      stripTokF p ps fuel (dropNl ((c :: rest).drop (ps.length + 1)))
    else
      c :: stripTokF p ps fuel rest

/-- Scanner with enough fuel for its input. -/
def stripTok (p : Char) (ps : List Char) (l : List Char) : List Char :=
  stripTokF p ps l.length l

/-- Tail of the ` ```html ` fence token. -/
def htmlFenceTail : List Char := ['`', '`', 'h', 't', 'm', 'l']

/-- Tail of the bare ` ``` ` fence token. -/
def fenceTail : List Char := ['`', '`']

/-- `replace(/```html\n?/g, '')` from server.js. -/
def stripHtmlFenceC (l : List Char) : List Char := stripTok '`' htmlFenceTail l

/-- `replace(/```\n?/g, '')` from server.js. -/
def stripFenceC (l : List Char) : List Char := stripTok '`' fenceTail l

/-- Both fence-removal passes, in the order server.js applies them. -/
def stripFencesC (l : List Char) : List Char := stripFenceC (stripHtmlFenceC l)

/-- `html.replace(/```html\n?/g, '').replace(/```\n?/g, '').trim()` from
server.js (used identically in the mockups, chat and voice handlers). -/
def cleanup (s : String) : String := String.mk (trimChars (stripFencesC s.data))

/-- Three consecutive backticks. -/
def tickTriple : List Char := ['`', '`', '`']

/-- No three consecutive backticks occur in the list. -/
def tripleFree (l : List Char) : Prop := ¬ tickTriple <:+: l

instance (l : List Char) : Decidable (tripleFree l) := by
  unfold tripleFree; exact instDecidableNot

/-- Head part of the server.js document shell template, up to `<title>`. -/
def shellP1 : String :=
  "<!DOCTYPE html>\n<html lang=\"en\">\n<head>\n  <meta charset=\"UTF-8\">\n  <meta name=\"viewport\" content=\"width=device-width, initial-scale=1.0\">\n  <title>"

/-- Middle part of the server.js document shell template, from `</title>`
through the end of `</head>`. -/
def shellHead2 : String :=
  "</title>\n  <script src=\"https://cdn.tailwindcss.com\"></script>\n  <style>\n    * \x7b margin: 0; padding: 0; box-sizing: border-box; \x7d\n    body \x7b font-family: -apple-system, BlinkMacSystemFont, \x27Segoe UI\x27, Roboto, sans-serif; \x7d\n  </style>\n</head>\n"

/-- The complete-document shell server.js wraps fragments in (template literal
at lines 184-199 and 427-442), parameterized by the `<title>` text. -/
def shellDoc (title body : String) : String :=
  shellP1 ++ title ++ shellHead2 ++ "<body>\n" ++ body ++ "\n</body>" ++ "\n</html>"

/-- Character list of the shell up to the `<title>` text. -/
def shellA : List Char := shellP1.data

/-- Character list of the shell between `</title>` and `<body>`. -/
def shellB0 : List Char := shellHead2.data

/-- Character list of the `<body>` opener including its newline. -/
def bodyOpen : List Char := "<body>\n".data

/-- Character list of the `</body>` closer including its newline. -/
def bodyClose : List Char := "\n</body>".data

/-- Character list of the `</html>` closer including its newline. -/
def htmlClose : List Char := "\n</html>".data

/-- Character-list view of the document shell, right-nested for lemmas. -/
def shellData (T U : List Char) : List Char :=
  shellA ++ (T ++ (shellB0 ++ (bodyOpen ++ (U ++ (bodyClose ++ htmlClose)))))

/-- `html.includes('<!DOCTYPE') || html.includes('<html')`, the server.js test
for an already-complete document. -/
def isCompleteDocB (s : String) : Bool := hasSub "<!DOCTYPE" s || hasSub "<html" s

/-- The cleanup-and-wrap step of server.js: strip fences, trim, then wrap in
the document shell unless the text already contains a doctype or `<html`
marker. -/
def ensureCompleteHtml (title raw : String) : String :=
  let u := cleanup raw
  if isCompleteDocB u then u else shellDoc title u

/-- Case-insensitive starts-with, used to state the spec's classification
criterion. -/
def startsWithCI (p s : String) : Bool :=
  (p.data.map Char.toLower).isPrefixOf (s.data.map Char.toLower)

/-- Sketch-surface keyword heuristic from server.js (chat lines 299-302,
voice lines 528-531): lower-case the message and look for any of the four
keywords as substrings. -/
def isExcalidrawRequest (m : String) : Bool :=
  hasSub "excalidraw" (lowerStr m) || hasSub "canvas" (lowerStr m) ||
  hasSub "sketch" (lowerStr m) || hasSub "draw" (lowerStr m)

/-- JS truthiness of a string value: truthy iff non-empty. -/
def strTruthy (s : String) : Bool := if s = "" then false else true

/-- `currentHTML.substring(0, 8000)` followed by the `... (truncated)` marker
when the HTML is longer than 8000 units, as interpolated into the prompts. -/
def truncatedHtml (h : String) : String :=
  String.mk (h.data.take 8000) ++
    (if 8000 < h.data.length then "... (truncated)" else "")

/-- System prompt of the chat modification branch (server.js lines 313-331). -/
def chatModPromptA (msg h : String) : String :=
  "You are FrameForge, an AI assistant that modifies HTML/CSS interfaces.\n\nUSER REQUEST: \"" ++
  msg ++
  "\"\n\nCRITICAL: You MUST return the complete, updated HTML code. Do NOT provide text explanations or guidance.\n\nREQUIREMENTS:\n1. Return ONLY the complete HTML document code\n2. NO markdown code blocks (no ```html or ```)\n3. NO explanatory text before or after the HTML\n4. Include the FULL HTML structure (<!DOCTYPE html><html>...</html>)\n5. Include Tailwind CSS CDN: <script src=\"https://cdn.tailwindcss.com\"></script>\n6. Make the requested changes to the HTML\n7. Preserve the overall structure and layout\n\nCurrent HTML to modify:\n" ++
  truncatedHtml h ++
  "\n\nReturn ONLY the updated HTML code starting with <!DOCTYPE html> or <html>."

/-- System prompt of the (unreachable) second chat HTML branch (server.js
lines 335-352). -/
def chatModPromptB (msg h : String) : String :=
  "You are FrameForge, an AI assistant that modifies HTML/CSS interfaces.\n\nUSER REQUEST: \"" ++
  msg ++
  "\"\n\nThe user has a generated HTML interface. When they request ANY changes (colors, sizes, styles, layout, etc.), you MUST return the complete updated HTML code.\n\nREQUIREMENTS:\n1. Return ONLY the complete HTML document code\n2. NO markdown code blocks\n3. NO explanatory text\n4. Include FULL HTML structure\n5. Include Tailwind CSS CDN: <script src=\"https://cdn.tailwindcss.com\"></script>\n6. Make the requested changes\n\nCurrent HTML:\n" ++
  truncatedHtml h ++
  "\n\nReturn ONLY the updated HTML code."

/-- Generic assistant system prompt (server.js lines 354-360, identical at
lines 568-574). -/
def assistantGenericPrompt : String :=
  "You are FrameForge, an AI assistant that helps users create and edit UI mockups and designs. \nYou can help users:\n- Modify generated HTML/mockup outputs\n- Provide design suggestions and feedback\n- Answer questions about the design process\n\nBe concise, helpful, and focused on design-related tasks."

/-- Corrective suffix appended to the system prompt for the chat retry
(server.js line 395). -/
def retrySuffix : String :=
  "\n\nIMPORTANT: The previous response was not HTML. You MUST return HTML code only. Start with <!DOCTYPE html> or <html>."

/-- `looksLikeHTML` test shared by chat (lines 380-382) and voice (lines
591-593). -/
def looksLikeHTML (a : String) : Bool :=
  startsWithStr "<!DOCTYPE" (trimStr a) || startsWithStr "<html" (trimStr a) ||
  (hasSub "<" a && hasSub ">" a && decide (100 < a.data.length))

/-- `containsHTML` test of the chat handler (server.js lines 386-389). -/
def containsHTMLChat (a : String) : Bool :=
  looksLikeHTML a || (hasSub "<div" a && hasSub "</div>" a) ||
  (hasSub "<body" a || hasSub "<section" a || hasSub "<main" a) ||
  (hasSub "<head" a && hasSub "</head>" a)

/-- `containsHTML` test of the voice handler (server.js lines 596-598); note
it has no `<head>` clause. -/
def containsHTMLVoice (a : String) : Bool :=
  looksLikeHTML a || (hasSub "<div" a && hasSub "</div>" a) ||
  (hasSub "<body" a || hasSub "<section" a || hasSub "<main" a)

/-- Acceptance test applied to the chat retry completion (server.js lines
407-408). -/
def retryAccept (r : String) : Bool :=
  startsWithStr "<!DOCTYPE" (trimStr r) || startsWithStr "<html" (trimStr r) ||
  (hasSub "<div" r && hasSub "</div>" r)

/-- The `message` field of a chat request body: either a JS string or some
non-string value. -/
inductive ReqField where
  | str (s : String)
  | nonString
deriving DecidableEq

/-- One chat-completions request issued to the provider. -/
structure ChatCall where
  systemPrompt : String
  userContent : String
  temperature : ℚ
  maxTokens : Nat
deriving DecidableEq

/-- Observable response of the `/api/chat` endpoint, together with the log of
provider calls the handler issued. -/
structure ChatResponse where
  status : Nat
  message : String
  html : Option String
  calls : List ChatCall
deriving DecidableEq

/-- The 400 response of `/api/chat` for invalid messages (server.js lines
279-283). -/
def chatValidationError : ChatResponse :=
  ⟨400, "Message is required and must be a non-empty string.", none, []⟩

/-- The `/api/chat` handler (server.js lines 275-468). `oracle n` is the text
content of the n-th chat completion the provider returns within this request
(the model call is blocking I/O; an empty string models a missing content
field). Session ids, timestamps and the echoed `context` field are not
modelled; the retry's try/catch is modelled by a total oracle. -/
def chatHandler (configured : Bool) (message : Option ReqField)
    (currentHTML : Option String) (oracle : Nat → String) : ChatResponse :=
  match message with
  | none => chatValidationError
  | some .nonString => chatValidationError
  | some (.str msg) =>
    if trimStr msg = "" then chatValidationError
    else if configured = false then
      { status := 200
        message := "Received your message: \"" ++ msg ++
          "\". OpenAI API key not configured. Please set OPENAI_API_KEY in your .env file."
        html := none
        calls := [] }
    else
      let curr := currentHTML.getD ""
      let currTruthy := strTruthy curr
      let isExcal := isExcalidrawRequest msg
      let isMod := currTruthy && !isExcal
      let forceHTML :=
        if isMod && currTruthy then true
        else if currTruthy && !isExcal then true
        else false
      let systemPrompt :=
        if isMod && currTruthy then chatModPromptA msg curr
        else if currTruthy && !isExcal then chatModPromptB msg curr
        else assistantGenericPrompt
      let call0 : ChatCall := ⟨systemPrompt, msg, 0.7, if forceHTML then 4000 else 500⟩
      let raw0 := oracle 0
      let a0 := if raw0 = "" then "I apologize, but I could not generate a response." else raw0
      let contains0 := containsHTMLChat a0
      let doRetry := forceHTML && !contains0
      let call1 : ChatCall := ⟨systemPrompt ++ retrySuffix, msg, 0.3, 4000⟩
      let aiResponse :=
        if doRetry then (if retryAccept (oracle 1) then cleanup (oracle 1) else a0)
        else a0
      let containsHTML := if doRetry then retryAccept (oracle 1) else contains0
      let calls := if doRetry then [call0, call1] else [call0]
      if (forceHTML && containsHTML) || (isMod && containsHTML) ||
          (currTruthy && containsHTML && !isExcal) then
        { status := 200
          message := "HTML has been updated based on your request."
          html := some (ensureCompleteHtml "Updated UI" aiResponse)
          calls := calls }
      else
        { status := 200, message := aiResponse, html := none, calls := calls }

/-- Observable side effects of the voice handler before its chat call. -/
inductive VoiceEffect where
  | tempFileWrite
  | whisperCall
deriving DecidableEq

/-- Observable response of the `/api/voice` endpoint, with the chat calls and
pre-completion effects the handler performed. -/
structure VoiceResponse where
  status : Nat
  transcript : Option String
  message : String
  html : Option String
  calls : List ChatCall
  effects : List VoiceEffect
deriving DecidableEq

/-- System prompt of the voice modification branch (server.js lines 539-556). -/
def voiceModPromptA (h : String) : String :=
  "You are FrameForge, an AI assistant that helps users modify HTML/CSS interfaces.\nThe user has a generated HTML interface displayed in the preview pane and wants to make changes to it.\n\nCRITICAL INSTRUCTIONS:\n- The user is asking you to modify the HTML/CSS interface, NOT the Excalidraw canvas\n- You MUST return the complete, updated HTML code\n- Do NOT mention Excalidraw, canvas, or sketching\n- Do NOT include any markdown code blocks (no ```html or ```)\n- Return the FULL HTML document with all necessary structure\n- Make the requested changes while preserving the overall structure\n- Include Tailwind CSS CDN link if not present: <script src=\"https://cdn.tailwindcss.com\"></script>\n- Ensure the HTML is valid and complete\n- If the user asks a question, you can answer it, but if they request ANY visual change, return updated HTML\n\nCurrent HTML to modify:\n" ++
  truncatedHtml h ++
  "\n\nRemember: Return ONLY the HTML code, no explanations before or after the HTML."

/-- System prompt of the (unreachable) second voice HTML branch (server.js
lines 559-566). -/
def voiceModPromptB (h : String) : String :=
  "You are FrameForge, an AI assistant that helps users modify HTML/CSS interfaces.\nThe user has a generated HTML interface displayed in the preview pane.\n\nWhen the user requests changes or asks questions about the interface, you should modify the HTML.\nIf they ask a question, answer it, but if they request visual changes, return the updated HTML code.\n\nCurrent HTML:\n" ++
  truncatedHtml h

/-- The `/api/voice` handler (server.js lines 471-662). `transcribed` is the
Whisper transcription text for the posted audio; `oracle n` is the text of
the n-th chat completion. The temp-file write and the transcription call are
recorded as effects; the audio format and temp-file cleanup are not
modelled. -/
def voiceHandler (configured : Bool) (audio : Option String)
    (currentHTML : Option String) (transcribed : String)
    (oracle : Nat → String) : VoiceResponse :=
  if strTruthy (audio.getD "") = false then
    ⟨400, none, "Audio data is required.", none, [], []⟩
  else if configured = false then
    ⟨200, some "OpenAI API key not configured. Please set OPENAI_API_KEY in your .env file.",
      "Voice processing requires OpenAI API key.", none, [], []⟩
  else
    let transcript := transcribed
    let isExcal := isExcalidrawRequest transcript
    let curr := currentHTML.getD ""
    let currTruthy := strTruthy curr
    let isMod := currTruthy && !isExcal
    let systemPrompt :=
      if isMod && currTruthy then voiceModPromptA curr
      else if currTruthy && !isExcal then voiceModPromptB curr
      else assistantGenericPrompt
    let call0 : ChatCall := ⟨systemPrompt, transcript, 0.7, if isMod then 4000 else 500⟩
    let raw0 := oracle 0
    let a0 := if raw0 = "" then "I apologize, but I could not generate a response." else raw0
    let contains0 := containsHTMLVoice a0
    if (isMod && contains0) || (currTruthy && contains0 && !isExcal) then
      ⟨200, some transcript, "HTML has been updated based on your voice request.",
        some (ensureCompleteHtml "Updated UI" a0), [call0],
        [.tempFileWrite, .whisperCall]⟩
    else
      ⟨200, some transcript, a0, none, [call0], [.tempFileWrite, .whisperCall]⟩

/-- A completion stub that always answers in prose with no HTML markers. -/
def proseOracle : Nat → String := fun n =>
  if n = 0 then "Sure, try a warmer tone for the header." else "Still plain text."

/-- Fields of a successful `/api/generate-ui` payload as consumed by the
frontend (part_000 lines 220-231); `none` models an absent field. The values
are the DOMPurify-sanitized strings; sanitization is an external collaborator
and is not modelled (sanitizing the empty default yields the empty string). -/
structure GenPayload where
  html : Option String
  css : Option String
  js : Option String
deriving DecidableEq

/-- `scriptFragment` from part_000 lines 233-235: a module script is emitted
exactly when the sanitized js is non-whitespace. -/
def scriptFragment (js : String) : String :=
  if strTruthy (trimStr js) = true then
    "<script type=\"module\">\n" ++ js ++ "\n</script>"
  else ""

/-- The preview `doc` template from part_000 line 237. -/
def renderableDoc (p : GenPayload) : String :=
  "<!DOCTYPE html><html lang=\"en\"><head><meta charset=\"utf-8\" /><style>" ++
  p.css.getD "" ++ "</style></head><body>" ++ p.html.getD "" ++
  scriptFragment (p.js.getD "") ++ "</body></html>"

/-- Modelled from the spec: one step of the JSON-extractor scan (spec section
4.2). The state is (brace depth, string-mode flag, escape flag): inside
string mode a backslash escapes exactly the next character and braces do not
affect depth; outside it, braces move the depth and a quote enters string
mode. The `/api/generate-ui` endpoint implementing `extractJsonObject` is not
part of the published sources — only its frontend caller is — so the scanner
follows the spec's algorithm. -/
def scanStep : (Int × Bool × Bool) → Char → (Int × Bool × Bool) := fun st c =>
  let d := st.1
  let inStr := st.2.1
  let esc := st.2.2
  if esc then (d, inStr, false)
  else if inStr then
    if c = '\\' then (d, true, true)
    else if c = '"' then (d, false, false)
    else (d, true, false)
  else if c = '"' then (d, true, false)
  else if c = '{' then (d + 1, false, false)
  else if c = '}' then (d - 1, false, false)
  else (d, false, false)

/-- Depth reached after scanning a character list from the initial state. -/
def scanDepth (l : List Char) : Int := (l.foldl scanStep (0, false, false)).1

/-- Modelled from the spec: the extraction loop — consume characters left to
right, accumulating them, and stop successfully at the first character that
returns the depth to zero. -/
def extractLoop : List Char → (Int × Bool × Bool) → List Char → Option (List Char)
  | [], _, _ => none
  | c :: rest, st, acc =>
    let st' := scanStep st c
    if st'.1 = 0 then some ((c :: acc).reverse)
    else extractLoop rest st' (c :: acc)

/-- Modelled from the spec: `extractJsonObject` (spec section 4.2) — scan
from the first `\x7b`; return the substring up to the character where the
depth counter first returns to zero, or no match when there is no `\x7b` or
the depth never returns to zero. -/
def extractJsonObject (t : String) : Option String :=
  let l := t.data.dropWhile (fun c => !(c = '{'))
  if l = [] then none
  else (extractLoop l (0, false, false) []).map fun cs => String.mk cs

/-- Modelled from the spec: result variants of the Completion Requester
(spec section 3, `CompletionResult`); the completion layer of the
`/api/generate-ui` endpoint is not part of the published sources. -/
inductive CompletionResult where
  | completed (text : String)
  | incomplete (reason : String)
  | refused (reason : String)
  | transportError (message : String)
deriving DecidableEq

/-- Modelled from the spec: the error taxonomy of spec section 7. -/
inductive GenErrorKind where
  | transport
  | tokenBudget
  | modelRefusal
  | malformedOutput
deriving DecidableEq

/-- A failure surfaced to the caller: a taxonomy kind and a message. -/
structure GenError where
  kind : GenErrorKind
  message : String
deriving DecidableEq

/-- `UIDocument` of spec section 3. -/
structure UIDocument where
  html : String
  css : String
  js : String
deriving DecidableEq

/-- Successful `generateFromImage` response shape of spec section 6. -/
structure GenSuccess where
  html : String
  css : String
  js : String
  modelIdentifier : String
deriving DecidableEq

/-- Parse a JSON string literal body (after the opening quote) with
backslash escaping the next character verbatim; returns the decoded
characters and the rest after the closing quote. Fuel-indexed. -/
def parseStringLit : Nat → List Char → List Char → Option (List Char × List Char)
  | 0, _, _ => none
  | _ + 1, [], _ => none
  | fuel + 1, c :: rest, acc =>
    if c = '"' then some (acc.reverse, rest)
    else if c = '\\' then
      match rest with
      | [] => none
      | e :: rest' => parseStringLit fuel rest' (e :: acc)
    else parseStringLit fuel rest (c :: acc)

/-- Parse a string literal starting at its opening content. -/
def parseStr (l : List Char) : Option (List Char × List Char) :=
  parseStringLit (l.length + 1) l []

/-- Skip JSON whitespace. -/
def skipWS (l : List Char) : List Char := l.dropWhile isWSChar

/-- Parse the members of a flat JSON object whose values are all string
literals, after the opening brace; the accumulated pairs are returned when
the closing brace ends the input. Fuel-indexed. -/
def parseMembers : Nat → List Char → List (String × String) →
    Option (List (String × String))
  | 0, _, _ => none
  | fuel + 1, l, acc =>
    match skipWS l with
    | '"' :: rest =>
      match parseStr rest with
      | none => none
      | some (key, rest1) =>
        match skipWS rest1 with
        | ':' :: rest2 =>
          match skipWS rest2 with
          | '"' :: rest3 =>
            match parseStr rest3 with
            | none => none
            | some (val, rest4) =>
              match skipWS rest4 with
              | ',' :: rest5 =>
                parseMembers fuel rest5 ((String.mk key, String.mk val) :: acc)
              | '}' :: rest6 =>
                match skipWS rest6 with
                | [] => some (((String.mk key, String.mk val) :: acc).reverse)
                | _ => none
              | _ => none
          | _ => none
        | _ => none
    | _ => none

/-- Modelled from the spec: parse a whole text as a JSON object with
string-valued members (the payload shape spec section 4.3 requires); any
other JSON shape is rejected as malformed. -/
def parseObjTop (s : String) : Option (List (String × String)) :=
  match skipWS s.data with
  | '{' :: rest0 =>
    match skipWS rest0 with
    | '}' :: rest1 =>
      match skipWS rest1 with
      | [] => some []
      | _ => none
    | _ => parseMembers (s.data.length + 1) rest0 []
  | _ => none

/-- Look up a member by key. -/
def lookupField (fs : List (String × String)) (k : String) : Option String :=
  (fs.find? (fun p => p.1 == k)).map (·.2)

/-- Modelled from the spec: required string fields `html` and `css`, with
`js` optional and defaulting to the empty string (spec section 4.3 step 2). -/
def docOfFields (fs : List (String × String)) : Option UIDocument :=
  match lookupField fs "html", lookupField fs "css" with
  | some h, some c => some ⟨h, c, (lookupField fs "js").getD ""⟩
  | _, _ => none

/-- Enforce the spec section 3 invariant that `html` is non-empty on
success; whitespace-only values remain legal. -/
def checkDoc (d : UIDocument) (att : List String) :
    Except GenError UIDocument × List String :=
  if d.html = "" then
    (.error ⟨.malformedOutput, "Model output html field was empty."⟩, att)
  else (.ok d, att)

/-- Modelled from the spec: the Response Normalizer core (spec section 4.3,
steps 2-4) applied to the already fence-stripped text — attempt a direct
JSON parse, fall back to the JSON Extractor, and fail with `MalformedOutput`
otherwise. The second component records the payload texts handed to the JSON
parser, for the never-parses-truncated-output property. -/
def normalizeCore (u : String) : Except GenError UIDocument × List String :=
  match parseObjTop u with
  | some fs =>
    match docOfFields fs with
    | some d => checkDoc d [u]
    | none =>
      (.error ⟨.malformedOutput,
        "Parsed JSON lacks required string fields html and css."⟩, [u])
  | none =>
    match extractJsonObject u with
    | some cand =>
      match parseObjTop cand with
      | some fs =>
        match docOfFields fs with
        | some d => checkDoc d [u, cand]
        | none =>
          (.error ⟨.malformedOutput,
            "Extracted JSON lacks required string fields html and css."⟩, [u, cand])
      | none =>
        (.error ⟨.malformedOutput,
          "Extracted candidate did not parse as a JSON object."⟩, [u, cand])
    | none =>
      (.error ⟨.malformedOutput, "No JSON object found in model output."⟩, [u])

/-- The normalizer applied to the raw completion text: fences are stripped
first (spec section 4.3 step 1), then the core parse/extract pipeline runs. -/
def normalizeT (text : String) : Except GenError UIDocument × List String :=
  normalizeCore (cleanup text)

/-- Modelled from the spec: the `generateFromImage` orchestration (spec
sections 4.5, 6 and 7): a truncation signal is surfaced as a distinct
token-budget error naming the `OPENAI_RESPONSES_MAX_TOKENS` knob (the
configuration variable the repository README names for this) before any
parsing; refusals are surfaced verbatim; transport failures map to a
transport error; completed text goes through the Response Normalizer. The
second component again records the payloads handed to the JSON parser. -/
def generateFromImage (modelId : String) (result : CompletionResult) :
    Except GenError GenSuccess × List String :=
  match result with
  | .transportError m =>
    (.error ⟨.transport, "Model provider unreachable: " ++ m⟩, [])
  | .refused r => (.error ⟨.modelRefusal, r⟩, [])
  | .incomplete reason =>
    if reason = "length" then
      (.error ⟨.tokenBudget,
        "The completion was truncated by the token budget; raise OPENAI_RESPONSES_MAX_TOKENS to allow longer outputs."⟩,
        [])
    else
      (.error ⟨.malformedOutput, "The completion ended early: " ++ reason⟩, [])
  | .completed text =>
    match normalizeT text with
    | (.ok d, att) => (.ok ⟨d.html, d.css, d.js, modelId⟩, att)
    | (.error e, att) => (.error e, att)

theorem containsSubC_iff (n h : List Char) : containsSubC n h = true ↔ n <:+: h := by
  induction h with
  | nil =>
    simp [containsSubC, List.isEmpty_iff]
  | cons c t ih =>
    simp only [containsSubC, Bool.or_eq_true, List.isPrefixOf_iff_prefix, ih]
    exact (List.infix_cons_iff).symm

theorem hasSub_iff (n h : String) : hasSub n h = true ↔ n.data <:+: h.data :=
  containsSubC_iff n.data h.data

theorem data_append (a b : String) : (a ++ b).data = a.data ++ b.data := by
  cases a; cases b; rfl

theorem mk_data (s : String) : String.mk s.data = s := by
  cases s; rfl

theorem dropNl_length (l : List Char) : (dropNl l).length ≤ l.length := by
  cases l with
  | nil => simp [dropNl]
  | cons c r =>
    simp only [dropNl]
    split <;> simp

theorem stripTokF_irrel (p : Char) (ps : List Char) :
    ∀ f g l, l.length ≤ f → l.length ≤ g → stripTokF p ps f l = stripTokF p ps g l := by
  intro f
  induction f with
  | zero =>
    intro g l hf _
    have : l = [] := List.eq_nil_of_length_eq_zero (Nat.le_zero.mp hf)
    subst this
    cases g <;> rfl
  | succ f ih =>
    intro g l hf hg
    cases l with
    | nil => cases g <;> rfl
    | cons c rest =>
      cases g with
      | zero => simp at hg
      | succ g' =>
        simp only [List.length_cons] at hf hg
        have hdrop : (dropNl ((c :: rest).drop (ps.length + 1))).length ≤ rest.length := by
          calc (dropNl ((c :: rest).drop (ps.length + 1))).length
              ≤ ((c :: rest).drop (ps.length + 1)).length := dropNl_length _
            _ ≤ rest.length := by simp only [List.length_drop, List.length_cons]; omega
        simp only [stripTokF]
        split
        · exact ih g' _ (by omega) (by omega)
        · rw [ih g' rest (by omega) (by omega)]

theorem stripTok_nil (p : Char) (ps : List Char) : stripTok p ps [] = [] := rfl

theorem stripTok_pos (p : Char) (ps : List Char) (c : Char) (rest : List Char)
    (h : (c :: rest).take (ps.length + 1) = p :: ps) :
    stripTok p ps (c :: rest) =
      stripTok p ps (dropNl ((c :: rest).drop (ps.length + 1))) := by
  show stripTokF p ps (rest.length + 1) (c :: rest) = _
  simp only [stripTokF, if_pos h]
  apply stripTokF_irrel
  · calc (dropNl ((c :: rest).drop (ps.length + 1))).length
        ≤ ((c :: rest).drop (ps.length + 1)).length := dropNl_length _
      _ ≤ rest.length := by simp only [List.length_drop, List.length_cons]; omega
  · exact le_rfl

theorem stripTok_neg (p : Char) (ps : List Char) (c : Char) (rest : List Char)
    (h : ¬ (c :: rest).take (ps.length + 1) = p :: ps) :
    stripTok p ps (c :: rest) = c :: stripTok p ps rest := by
  show stripTokF p ps (rest.length + 1) (c :: rest) = _
  simp only [stripTokF, if_neg h]
  rfl

theorem head_of_prefixLem {a : Char} {l m : List Char} (h : a :: l <+: m) :
    m.head? = some a := by
  obtain ⟨t, rfl⟩ := h
  rfl

theorem tripleFree_mono {a b : List Char} (h : a <:+: b) (hb : tripleFree b) :
    tripleFree a := fun h3 => hb (h3.trans h)

theorem triple_prefix_head {X Y : List Char} (hfree : tripleFree X)
    (hY : Y.head? ≠ some '`') (h : tickTriple <+: X ++ Y) : False := by
  match X with
  | [] =>
    simp only [List.nil_append] at h
    exact hY (head_of_prefixLem h)
  | [a] =>
    simp only [List.cons_append, List.nil_append] at h
    rw [show tickTriple = '`' :: ['`', '`'] from rfl, List.cons_prefix_cons] at h
    exact hY (head_of_prefixLem h.2)
  | [a, b] =>
    simp only [List.cons_append, List.nil_append] at h
    rw [show tickTriple = '`' :: '`' :: ['`'] from rfl, List.cons_prefix_cons,
      List.cons_prefix_cons] at h
    exact hY (head_of_prefixLem h.2.2)
  | a :: b :: e :: X' =>
    simp only [List.cons_append] at h
    rw [show tickTriple = '`' :: '`' :: '`' :: ([] : List Char) from rfl,
      List.cons_prefix_cons, List.cons_prefix_cons, List.cons_prefix_cons] at h
    obtain ⟨ha, hb, he, -⟩ := h
    exact hfree ⟨[], X', by simp [tickTriple, ← ha, ← hb, ← he]⟩

theorem triple_prefix_last {X Y : List Char} {d : Char} (hfree : tripleFree X)
    (hlast : X.getLast? = some d) (hd : d ≠ '`') (h : tickTriple <+: X ++ Y) :
    False := by
  match X with
  | [] => simp at hlast
  | [a] =>
    simp only [List.getLast?_singleton, Option.some.injEq] at hlast
    simp only [List.cons_append, List.nil_append] at h
    rw [show tickTriple = '`' :: ['`', '`'] from rfl, List.cons_prefix_cons] at h
    exact hd (by rw [← hlast, ← h.1])
  | [a, b] =>
    have hlast' : b = d := by simpa using hlast
    simp only [List.cons_append, List.nil_append] at h
    rw [show tickTriple = '`' :: '`' :: ['`'] from rfl, List.cons_prefix_cons,
      List.cons_prefix_cons] at h
    exact hd (by rw [← hlast', ← h.2.1])
  | a :: b :: e :: X' =>
    simp only [List.cons_append] at h
    rw [show tickTriple = '`' :: '`' :: '`' :: ([] : List Char) from rfl,
      List.cons_prefix_cons, List.cons_prefix_cons, List.cons_prefix_cons] at h
    obtain ⟨ha, hb, he, -⟩ := h
    exact hfree ⟨[], X', by simp [tickTriple, ← ha, ← hb, ← he]⟩

theorem stripTok_append_headNe {p : Char} {ps : List Char}
    (hpat : tickTriple <+: p :: ps) :
    ∀ X Y, tripleFree X → Y.head? ≠ some '`' →
      stripTok p ps (X ++ Y) = X ++ stripTok p ps Y := by
  intro X
  induction X with
  | nil => simp
  | cons c X' ih =>
    intro Y hX hY
    have hcond : ¬ ((c :: (X' ++ Y)).take (ps.length + 1) = p :: ps) := by
      intro hc
      have hpre : p :: ps <+: c :: (X' ++ Y) := hc ▸ List.take_prefix _ _
      have h3 : tickTriple <+: (c :: X') ++ Y := by
        simpa using hpat.trans hpre
      exact triple_prefix_head hX hY h3
    rw [List.cons_append, stripTok_neg _ _ _ _ hcond,
      ih Y (tripleFree_mono ((List.suffix_cons c X').isInfix) hX) hY,
      ← List.cons_append]

theorem stripTok_append_lastNe {p : Char} {ps : List Char}
    (hpat : tickTriple <+: p :: ps) :
    ∀ X Y d, tripleFree X → X.getLast? = some d → d ≠ '`' →
      stripTok p ps (X ++ Y) = X ++ stripTok p ps Y := by
  intro X
  induction X with
  | nil => simp
  | cons c X' ih =>
    intro Y d hX hlast hd
    have hcond : ¬ ((c :: (X' ++ Y)).take (ps.length + 1) = p :: ps) := by
      intro hc
      have hpre : p :: ps <+: c :: (X' ++ Y) := hc ▸ List.take_prefix _ _
      have h3 : tickTriple <+: (c :: X') ++ Y := by
        simpa using hpat.trans hpre
      exact triple_prefix_last hX hlast hd h3
    rw [List.cons_append, stripTok_neg _ _ _ _ hcond]
    cases X' with
    | nil => rfl
    | cons x X'' =>
      rw [ih Y d (tripleFree_mono ((List.suffix_cons c _).isInfix) hX)
        (by simpa [List.getLast?_cons_cons] using hlast) hd, ← List.cons_append]

theorem stripTok_eq_self {p : Char} {ps : List Char}
    (hpat : tickTriple <+: p :: ps) :
    ∀ l, tripleFree l → stripTok p ps l = l := by
  intro l
  induction l with
  | nil => intro _; rfl
  | cons c rest ih =>
    intro hfree
    have hcond : ¬ ((c :: rest).take (ps.length + 1) = p :: ps) := by
      intro hc
      have hpre : p :: ps <+: c :: rest := hc ▸ List.take_prefix _ _
      exact hfree ((hpat.trans hpre).isInfix)
    rw [stripTok_neg _ _ _ _ hcond,
      ih (tripleFree_mono ((List.suffix_cons c rest).isInfix) hfree)]

theorem take3_shape {l : List Char} (h : l.take 3 = tickTriple) :
    ∃ zs, l = '`' :: '`' :: '`' :: zs := by
  refine ⟨l.drop 3, ?_⟩
  conv_lhs => rw [← List.take_append_drop 3 l]
  rw [h]
  rfl

theorem stripFenceF_head :
    ∀ f l, (stripTokF '`' fenceTail f l).head? = some '`' → l.head? = some '`' := by
  intro f
  induction f with
  | zero =>
    intro l h
    cases l with
    | nil => simp [stripTokF] at h
    | cons c rest => exact h
  | succ f ih =>
    intro l h
    cases l with
    | nil => simp [stripTokF] at h
    | cons c rest =>
      simp only [stripTokF] at h
      split at h
      · rename_i hc
        have : (c :: rest).take 3 = tickTriple := hc
        obtain ⟨zs, hzs⟩ := take3_shape this
        rw [hzs]
        rfl
      · simpa using congrArg id (by simpa using h)

theorem stripFenceF_two :
    ∀ f l ys, stripTokF '`' fenceTail f l = '`' :: '`' :: ys →
      ∃ zs, l = '`' :: '`' :: zs := by
  intro f
  induction f with
  | zero =>
    intro l ys h
    cases l with
    | nil => simp [stripTokF] at h
    | cons c rest =>
      exact ⟨ys, h⟩
  | succ f ih =>
    intro l ys h
    cases l with
    | nil => simp [stripTokF] at h
    | cons c rest =>
      simp only [stripTokF] at h
      split at h
      · rename_i hc
        have hc3 : (c :: rest).take 3 = tickTriple := hc
        obtain ⟨zs, hzs⟩ := take3_shape hc3
        exact ⟨'`' :: zs, by rw [hzs]⟩
      · rename_i hc
        obtain ⟨hc1, h2⟩ := List.cons_eq_cons.mp h
        have hhead : rest.head? = some '`' := by
          apply stripFenceF_head f rest
          rw [h2]
          rfl
        cases rest with
        | nil => simp at hhead
        | cons r rest' =>
          simp only [List.head?_cons, Option.some.injEq] at hhead
          exact ⟨rest', by rw [hc1, hhead]⟩

theorem stripFenceF_tripleFree :
    ∀ f l, l.length ≤ f → tripleFree (stripTokF '`' fenceTail f l) := by
  intro f
  induction f with
  | zero =>
    intro l h
    have : l = [] := List.eq_nil_of_length_eq_zero (Nat.le_zero.mp h)
    subst this
    intro h3
    have := List.eq_nil_of_infix_nil h3
    simp [tickTriple] at this
  | succ f ih =>
    intro l hlen
    cases l with
    | nil =>
      intro h3
      have := List.eq_nil_of_infix_nil h3
      simp [tickTriple] at this
    | cons c rest =>
      simp only [List.length_cons] at hlen
      simp only [stripTokF]
      split
      · apply ih
        calc (dropNl ((c :: rest).drop (fenceTail.length + 1))).length
            ≤ ((c :: rest).drop (fenceTail.length + 1)).length := dropNl_length _
          _ ≤ f := by simp only [List.length_drop, List.length_cons]; omega
      · rename_i hc
        intro h3
        rw [List.infix_cons_iff] at h3
        rcases h3 with h3 | h3
        · rw [show tickTriple = '`' :: '`' :: ['`'] from rfl,
            List.cons_prefix_cons] at h3
          obtain ⟨hc1, h3⟩ := h3
          obtain ⟨t, ht⟩ := h3
          obtain ⟨zs, hzs⟩ := stripFenceF_two f rest _ ht.symm
          apply hc
          rw [hzs, ← hc1]
          rfl
        · exact ih rest (by omega) h3

theorem stripFenceC_tripleFree (l : List Char) : tripleFree (stripFenceC l) :=
  stripFenceF_tripleFree l.length l le_rfl

theorem hpat_html : tickTriple <+: '`' :: htmlFenceTail := by decide

theorem hpat_tick : tickTriple <+: '`' :: fenceTail := by decide

theorem stripFencesC_eq_self {l : List Char} (h : tripleFree l) :
    stripFencesC l = l := by
  unfold stripFencesC stripHtmlFenceC stripFenceC
  rw [stripTok_eq_self hpat_html l h, stripTok_eq_self hpat_tick l h]

theorem tripleFree_stripFencesC (l : List Char) : tripleFree (stripFencesC l) :=
  stripFenceC_tripleFree _

theorem dropWhile_head_not (p : Char → Bool) :
    ∀ (l : List Char) (c : Char), (l.dropWhile p).head? = some c → p c = false := by
  intro l
  induction l with
  | nil => intro c h; simp [List.dropWhile] at h
  | cons a t ih =>
    intro c h
    by_cases ha : p a
    · rw [List.dropWhile_cons_of_pos ha] at h
      exact ih c h
    · rw [List.dropWhile_cons_of_neg ha] at h
      simp only [List.head?_cons, Option.some.injEq] at h
      rw [← h]
      exact Bool.not_eq_true _ ▸ (by simpa using ha)

theorem dropWhile_eq_self_of_head {p : Char → Bool} {l : List Char} {c : Char}
    (h : l.head? = some c) (hc : p c = false) : l.dropWhile p = l := by
  cases l with
  | nil => rfl
  | cons a t =>
    simp only [List.head?_cons, Option.some.injEq] at h
    rw [List.dropWhile_cons_of_neg (by rw [h, hc]; simp)]

theorem dropWhile_dropWhile_self (p : Char → Bool) (l : List Char) :
    (l.dropWhile p).dropWhile p = l.dropWhile p := by
  cases hh : (l.dropWhile p).head? with
  | none =>
    have : l.dropWhile p = [] := by
      cases hl : l.dropWhile p with
      | nil => rfl
      | cons a t => rw [hl] at hh; simp at hh
    rw [this]
    rfl
  | some c => exact dropWhile_eq_self_of_head hh (dropWhile_head_not p l c hh)

theorem trimRightC_prefixLem (x : List Char) : trimRightC x <+: x := by
  obtain ⟨t, ht⟩ :=
    (List.dropWhile_suffix isWSChar : List.dropWhile isWSChar x.reverse <:+ x.reverse)
  refine ⟨t.reverse, ?_⟩
  conv_rhs => rw [← List.reverse_reverse x, ← ht]
  rw [List.reverse_append]
  rfl

theorem trimLeftC_suffixLem (x : List Char) : trimLeftC x <:+ x :=
  List.dropWhile_suffix _

theorem trimChars_infixLem (l : List Char) : trimChars l <:+: l := by
  obtain ⟨t, ht⟩ := trimRightC_prefixLem (trimLeftC l)
  obtain ⟨s, hs⟩ := trimLeftC_suffixLem l
  refine ⟨s, t, ?_⟩
  show s ++ trimRightC (trimLeftC l) ++ t = l
  rw [List.append_assoc, ht, hs]

theorem head_eq_of_prefixNE {y z : List Char} (h : y <+: z) (hy : y ≠ []) :
    y.head? = z.head? := by
  obtain ⟨t, rfl⟩ := h
  cases y with
  | nil => exact absurd rfl hy
  | cons a y' => rfl

theorem trimChars_idem (l : List Char) : trimChars (trimChars l) = trimChars l := by
  have h1 : trimLeftC (trimChars l) = trimChars l := by
    cases hcy : (trimChars l).head? with
    | none =>
      cases hl : trimChars l with
      | nil => rfl
      | cons a t => rw [hl] at hcy; simp at hcy
    | some c =>
      have hne : trimChars l ≠ [] := by
        intro h0
        rw [h0] at hcy
        simp at hcy
      have hzc : (trimLeftC l).head? = some c := by
        rw [← head_eq_of_prefixNE (trimRightC_prefixLem (trimLeftC l)) hne]
        exact hcy
      exact dropWhile_eq_self_of_head hcy (dropWhile_head_not isWSChar l c hzc)
  have h2 : trimRightC (trimChars l) = trimChars l := by
    show trimRightC (trimRightC (trimLeftC l)) = trimRightC (trimLeftC l)
    unfold trimRightC
    rw [List.reverse_reverse, dropWhile_dropWhile_self]
  show trimRightC (trimLeftC (trimChars l)) = trimChars l
  rw [h1, h2]

theorem trimChars_eq_self {l : List Char} {c d : Char}
    (h1 : l.head? = some c) (hc : isWSChar c = false)
    (h2 : l.getLast? = some d) (hd : isWSChar d = false) : trimChars l = l := by
  have hL : trimLeftC l = l := dropWhile_eq_self_of_head h1 hc
  have hR : trimRightC l = l := by
    unfold trimRightC
    rw [dropWhile_eq_self_of_head (by rw [List.head?_reverse]; exact h2) hd,
      List.reverse_reverse]
  unfold trimChars
  rw [hL, hR]

theorem cleanup_data (s : String) : (cleanup s).data = trimChars (stripFencesC s.data) := rfl

theorem tripleFree_cleanup (s : String) : tripleFree (cleanup s).data := by
  rw [cleanup_data]
  exact tripleFree_mono (trimChars_infixLem _) (tripleFree_stripFencesC _)

theorem cleanup_cleanup (s : String) : cleanup (cleanup s) = cleanup s := by
  have h' : tripleFree (trimChars (stripFencesC s.data)) := tripleFree_cleanup s
  show String.mk (trimChars (stripFencesC (trimChars (stripFencesC s.data)))) = cleanup s
  rw [stripFencesC_eq_self h', trimChars_idem]
  rfl

theorem shellDoc_data (t u : String) : (shellDoc t u).data = shellData t.data u.data := by
  simp [shellDoc, shellData, data_append, shellA, shellB0, bodyOpen, bodyClose,
    htmlClose, List.append_assoc]

theorem head?_append_left {l₁ l₂ : List Char} {c : Char} (h : l₁.head? = some c) :
    (l₁ ++ l₂).head? = some c := by
  cases l₁ with
  | nil => simp at h
  | cons a t =>
    simp only [List.head?_cons, Option.some.injEq] at h
    simp [h]

theorem stripTok_shell {p : Char} {ps : List Char} (hp : tickTriple <+: p :: ps)
    (T U : List Char) (hT : tripleFree T) (hU : tripleFree U) :
    stripTok p ps (shellData T U) = shellData T U := by
  unfold shellData
  rw [stripTok_append_lastNe hp shellA _ '>' (by decide) (by decide) (by decide)]
  have hBhead : (shellB0 ++ (bodyOpen ++ (U ++ (bodyClose ++ htmlClose)))).head? =
      some '<' := head?_append_left (by decide)
  rw [stripTok_append_headNe hp T _ hT (by rw [hBhead]; decide)]
  rw [stripTok_append_lastNe hp shellB0 _ '\n' (by decide) (by decide) (by decide)]
  rw [stripTok_append_lastNe hp bodyOpen _ '\n' (by decide) (by decide) (by decide)]
  have hShead : (bodyClose ++ htmlClose).head? = some '\n' := head?_append_left (by decide)
  rw [stripTok_append_headNe hp U _ hU (by rw [hShead]; decide)]
  rw [stripTok_eq_self hp _ (by decide)]

theorem shellData_getLast (T U : List Char) :
    (shellData T U).getLast? = some '>' := by
  have h1 : htmlClose.getLast? = some '>' := by decide
  simp [shellData, List.getLast?_append, h1, Option.or]

theorem shellData_head (T U : List Char) :
    (shellData T U).head? = some '<' := by
  unfold shellData
  exact head?_append_left (by decide)

theorem cleanup_shell (t u : String) (hT : tripleFree t.data) (hU : tripleFree u.data) :
    cleanup (shellDoc t u) = shellDoc t u := by
  show String.mk (trimChars (stripFencesC (shellDoc t u).data)) = shellDoc t u
  rw [shellDoc_data]
  show String.mk (trimChars (stripFenceC (stripHtmlFenceC (shellData t.data u.data)))) = _
  unfold stripHtmlFenceC stripFenceC
  rw [stripTok_shell hpat_html _ _ hT hU, stripTok_shell hpat_tick _ _ hT hU,
    trimChars_eq_self (shellData_head _ _) (by decide) (shellData_getLast _ _) (by decide),
    ← shellDoc_data, mk_data]

theorem isCompleteDoc_shell (t u : String) : isCompleteDocB (shellDoc t u) = true := by
  unfold isCompleteDocB
  have h : hasSub "<!DOCTYPE" (shellDoc t u) = true := by
    rw [hasSub_iff, shellDoc_data]
    have hpre : ("<!DOCTYPE".data) <+: shellA := by decide
    exact (hpre.trans ( List.prefix_append shellA _)).isInfix
  rw [h]
  rfl

theorem ensure_pos {title s : String} (h : isCompleteDocB (cleanup s) = true) :
    ensureCompleteHtml title s = cleanup s := by
  simp [ensureCompleteHtml, h]

theorem ensure_neg {title s : String} (h : isCompleteDocB (cleanup s) = false) :
    ensureCompleteHtml title s = shellDoc title (cleanup s) := by
  simp [ensureCompleteHtml, h]

theorem shellDoc_ne (title u : String) : shellDoc title u ≠ u := by
  intro h
  have hdata := congrArg String.data h
  rw [shellDoc_data] at hdata
  have hlen := congrArg List.length hdata
  have hA : 0 < shellA.length := by decide
  simp [shellData, List.length_append] at hlen
  omega

theorem ensure_idem (title : String) (ht : tripleFree title.data) (s : String) :
    ensureCompleteHtml title (ensureCompleteHtml title s) = ensureCompleteHtml title s := by
  by_cases h : isCompleteDocB (cleanup s) = true
  · rw [ensure_pos h, ensure_pos (by rw [cleanup_cleanup]; exact h), cleanup_cleanup]
  · have h' : isCompleteDocB (cleanup s) = false := by
      cases hb : isCompleteDocB (cleanup s)
      · rfl
      · exact absurd hb h
    rw [ensure_neg h']
    have hc : cleanup (shellDoc title (cleanup s)) = shellDoc title (cleanup s) :=
      cleanup_shell title (cleanup s) ht (tripleFree_cleanup s)
    rw [ensure_pos (by rw [hc]; exact isCompleteDoc_shell _ _), hc]

theorem hasSub_shellA (n t u : String) (hn : containsSubC n.data shellA = true) :
    hasSub n (shellDoc t u) = true := by
  rw [hasSub_iff, shellDoc_data]
  refine ((containsSubC_iff _ _).mp hn).trans ?_
  exact ⟨[], t.data ++ (shellB0 ++ (bodyOpen ++ (u.data ++ (bodyClose ++ htmlClose)))),
    by simp [shellData]⟩

theorem hasSub_shellB0 (n t u : String) (hn : containsSubC n.data shellB0 = true) :
    hasSub n (shellDoc t u) = true := by
  rw [hasSub_iff, shellDoc_data]
  refine ((containsSubC_iff _ _).mp hn).trans ?_
  exact ⟨shellA ++ t.data, bodyOpen ++ (u.data ++ (bodyClose ++ htmlClose)),
    by simp [shellData, List.append_assoc]⟩

theorem hasSub_body (t u : String) :
    hasSub ("<body>\n" ++ u ++ "\n</body>") (shellDoc t u) = true := by
  rw [hasSub_iff, shellDoc_data]
  have hdata : ("<body>\n" ++ u ++ "\n</body>").data = (bodyOpen ++ u.data) ++ bodyClose := by
    simp [data_append, bodyOpen, bodyClose, List.append_assoc]
  rw [hdata]
  exact ⟨shellA ++ (t.data ++ shellB0), htmlClose, by simp [shellData, List.append_assoc]⟩

/-- C10: the cleanup-and-wrap transformation applied to completion text
(remove every fence marker, trim, then wrap in the document shell unless the
text contains `<!DOCTYPE` or `<html`) is idempotent, for both of the shells
server.js uses (titles `Generated UI` in `/api/mockups` and `Updated UI` in
`/api/chat` and `/api/voice`): applying it to its own output returns the
output unchanged. -/
theorem c10_cleanup_wrap_idempotent :
    (∀ s, ensureCompleteHtml "Generated UI" (ensureCompleteHtml "Generated UI" s) =
      ensureCompleteHtml "Generated UI" s)
    ∧ (∀ s, ensureCompleteHtml "Updated UI" (ensureCompleteHtml "Updated UI" s) =
      ensureCompleteHtml "Updated UI" s) :=
  ⟨ensure_idem "Generated UI" (by decide), ensure_idem "Updated UI" (by decide)⟩

/-- C3 counterexample: the completion text
`<!doctype html><HTML><body>hi</body></HTML>` starts (case-insensitively)
with a doctype declaration, yet the repair step does not return it unchanged:
server.js compares `<!DOCTYPE` and `<html` case-sensitively with `includes`,
so this document is wrapped in another shell. -/
theorem c3_counterexample :
    startsWithCI "<!doctype" (cleanup "<!doctype html><HTML><body>hi</body></HTML>") = true
    ∧ ensureCompleteHtml "Generated UI" "<!doctype html><HTML><body>hi</body></HTML>"
      ≠ cleanup "<!doctype html><HTML><body>hi</body></HTML>" := by
  constructor
  · decide
  · rw [ensure_neg (by decide)]
    exact shellDoc_ne _ _

/-- C3 amended: the repair step returns the fence-stripped trimmed text
unchanged exactly when that text contains `<!DOCTYPE` or `<html` as a
case-sensitive substring anywhere (not when it starts with a doctype or
`<html` case-insensitively); all other texts are wrapped in the document
shell, and wrapping never returns the input unchanged. -/
theorem c3_repair_complete_doc (title s : String) :
    (isCompleteDocB (cleanup s) = true → ensureCompleteHtml title s = cleanup s)
    ∧ (isCompleteDocB (cleanup s) = false →
        ensureCompleteHtml title s = shellDoc title (cleanup s)
        ∧ ensureCompleteHtml title s ≠ cleanup s) := by
  constructor
  · exact ensure_pos
  · intro h
    refine ⟨ensure_neg h, ?_⟩
    rw [ensure_neg h]
    exact shellDoc_ne _ _

/-- C3 witness: a complete lowercase-tag document is classified as complete
and returned unchanged, and a fragment is wrapped. -/
theorem c3_repair_witness :
    isCompleteDocB (cleanup "<!DOCTYPE html><html><body>x</body></html>") = true
    ∧ ensureCompleteHtml "Generated UI" "<!DOCTYPE html><html><body>x</body></html>"
      = cleanup "<!DOCTYPE html><html><body>x</body></html>" :=
  ⟨by decide, (c3_repair_complete_doc "Generated UI" _).1 (by decide)⟩

/-- C4: every completion text the repair step classifies as a fragment (its
cleaned form contains neither `<!DOCTYPE` nor `<html`) is wrapped into a
document that contains a doctype declaration, a UTF-8 charset meta tag, a
responsive viewport meta tag, an inline stylesheet with a default sans-serif
font reset, and the original (cleaned) fragment text nested inside the body
element. -/
theorem c4_fragment_wrapped_document (title s : String)
    (h : isCompleteDocB (cleanup s) = false) :
    hasSub "<!DOCTYPE html>" (ensureCompleteHtml title s) = true
    ∧ hasSub "<meta charset=\"UTF-8\">" (ensureCompleteHtml title s) = true
    ∧ hasSub "<meta name=\"viewport\" content=\"width=device-width, initial-scale=1.0\">"
        (ensureCompleteHtml title s) = true
    ∧ hasSub "<style>" (ensureCompleteHtml title s) = true
    ∧ hasSub "font-family: -apple-system, BlinkMacSystemFont, \x27Segoe UI\x27, Roboto, sans-serif;"
        (ensureCompleteHtml title s) = true
    ∧ hasSub ("<body>\n" ++ cleanup s ++ "\n</body>") (ensureCompleteHtml title s) = true := by
  rw [ensure_neg h]
  exact ⟨hasSub_shellA _ _ _ (by decide), hasSub_shellA _ _ _ (by decide),
    hasSub_shellA _ _ _ (by decide), hasSub_shellB0 _ _ _ (by decide),
    hasSub_shellB0 _ _ _ (by decide), hasSub_body _ _⟩

/-- C4 witness: the fragment `<div>hello</div>` is wrapped into a document
with doctype, charset, viewport, sans-serif reset, and the fragment in the
body. -/
theorem c4_fragment_witness :
    isCompleteDocB (cleanup "<div>hello</div>") = false
    ∧ (hasSub "<!DOCTYPE html>" (ensureCompleteHtml "Generated UI" "<div>hello</div>") = true
      ∧ hasSub "<meta charset=\"UTF-8\">" (ensureCompleteHtml "Generated UI" "<div>hello</div>") = true
      ∧ hasSub "<meta name=\"viewport\" content=\"width=device-width, initial-scale=1.0\">"
          (ensureCompleteHtml "Generated UI" "<div>hello</div>") = true
      ∧ hasSub "<style>" (ensureCompleteHtml "Generated UI" "<div>hello</div>") = true
      ∧ hasSub "font-family: -apple-system, BlinkMacSystemFont, \x27Segoe UI\x27, Roboto, sans-serif;"
          (ensureCompleteHtml "Generated UI" "<div>hello</div>") = true
      ∧ hasSub ("<body>\n" ++ cleanup "<div>hello</div>" ++ "\n</body>")
          (ensureCompleteHtml "Generated UI" "<div>hello</div>") = true) :=
  ⟨by decide, c4_fragment_wrapped_document "Generated UI" "<div>hello</div>" (by decide)⟩

/-- C7: a chat message that is missing, not a string, or empty/whitespace-only
is rejected with HTTP 400 before any provider call, and a voice request whose
audio field is missing (or falsy) is rejected with HTTP 400 before the temp
file write, the transcription call, and any chat call — so no provider
resources are consumed and no other observable effect occurs. -/
theorem c7_validation_rejected_before_model_call :
    (∀ cfg curr oracle, chatHandler cfg none curr oracle = chatValidationError)
    ∧ (∀ cfg curr oracle,
        chatHandler cfg (some .nonString) curr oracle = chatValidationError)
    ∧ (∀ cfg curr oracle m, trimStr m = "" →
        chatHandler cfg (some (.str m)) curr oracle = chatValidationError)
    ∧ (chatValidationError.status = 400 ∧ chatValidationError.calls = [])
    ∧ (∀ cfg curr t oracle audio, strTruthy (audio.getD "") = false →
        (voiceHandler cfg audio curr t oracle).status = 400
        ∧ (voiceHandler cfg audio curr t oracle).calls = []
        ∧ (voiceHandler cfg audio curr t oracle).effects = []) := by
  refine ⟨fun _ _ _ => rfl, fun _ _ _ => rfl, ?_, ⟨rfl, rfl⟩, ?_⟩
  · intro cfg curr oracle m hm
    simp [chatHandler, hm]
  · intro cfg curr t oracle audio ha
    refine ⟨?_, ?_, ?_⟩ <;> simp [voiceHandler, ha]

/-- C7 witness: a whitespace-only chat message and an absent audio field are
both rejected with 400 and no calls. -/
theorem c7_validation_witness :
    trimStr "   " = ""
    ∧ chatHandler true (some (.str "   ")) (some "<p>x</p>") (fun _ => "ok") =
        chatValidationError
    ∧ strTruthy ((none : Option String).getD "") = false
    ∧ (voiceHandler true none (some "<p>x</p>") "hello" (fun _ => "ok")).status = 400
    ∧ (voiceHandler true none (some "<p>x</p>") "hello" (fun _ => "ok")).calls = []
    ∧ (voiceHandler true none (some "<p>x</p>") "hello" (fun _ => "ok")).effects = [] := by
  refine ⟨by decide, ?_, by decide, ?_, ?_, ?_⟩
  · exact c7_validation_rejected_before_model_call.2.2.1 true _ _ "   " (by decide)
  all_goals
    have h := c7_validation_rejected_before_model_call.2.2.2.2 true (some "<p>x</p>")
      "hello" (fun _ => "ok") none (by decide)
  · exact h.1
  · exact h.2.1
  · exact h.2.2

/-- C8: a chat message containing one of the sketching-surface keywords
(`excalidraw`, `canvas`, `sketch`, `draw`; case-insensitive substrings) is
classified as an Excalidraw request, and the chat response never carries an
`html` update, whatever the configuration, the stored `currentHTML`, and the
model completions. -/
theorem c8_canvas_keywords_no_html_update (cfg : Bool) (m : String)
    (curr : Option String) (oracle : Nat → String)
    (hkw : isExcalidrawRequest m = true) :
    (chatHandler cfg (some (.str m)) curr oracle).html = none := by
  by_cases ht : trimStr m = ""
  · simp [chatHandler, ht, chatValidationError]
  · cases cfg
    · simp [chatHandler, ht]
    · simp [chatHandler, ht, hkw]

/-- C8 witness: a message containing `sketch` never yields an `html` field,
even with `currentHTML` present and the model returning a div. -/
theorem c8_canvas_witness :
    isExcalidrawRequest "please sketch a new hero section" = true
    ∧ (chatHandler true (some (.str "please sketch a new hero section"))
        (some "<p>x</p>") (fun _ => "<div>new</div>")).html = none :=
  ⟨by decide,
    c8_canvas_keywords_no_html_update true _ (some "<p>x</p>") _ (by decide)⟩

/-- C1: for a text modification request (non-empty `currentHTML`, message not
about the canvas) whose first completion contains no HTML markers, the chat
handler issues exactly one corrective re-request — the logged calls are the
original plus a retry at a strictly lower temperature whose system prompt
carries the forceful HTML-only instruction — and if the retry still yields no
HTML the response is the raw first completion text with no `html` field. The
voice handler issues at most one request in total (so never more than one
corrective re-request, in fact none), and falls back the same way: raw text,
no `html` field. -/
theorem c1_single_retry_then_fallback (msg H : String) (oracle : Nat → String)
    (hH : H ≠ "") (hmsg : trimStr msg ≠ "")
    (hkw : isExcalidrawRequest msg = false)
    (h0 : oracle 0 ≠ "")
    (hnoHtml : containsHTMLChat (oracle 0) = false) :
    (∃ c0 c1 : ChatCall,
      (chatHandler true (some (.str msg)) (some H) oracle).calls = [c0, c1]
      ∧ c1.temperature < c0.temperature
      ∧ hasSub "You MUST return HTML code only" c1.systemPrompt = true
      ∧ (retryAccept (oracle 1) = false →
          (chatHandler true (some (.str msg)) (some H) oracle).html = none
          ∧ (chatHandler true (some (.str msg)) (some H) oracle).message = oracle 0))
    ∧ (∀ transcript audio, strTruthy (audio.getD "") = true →
        (voiceHandler true audio (some H) transcript oracle).calls.length = 1)
    ∧ (∀ transcript audio, strTruthy (audio.getD "") = true →
        isExcalidrawRequest transcript = false →
        containsHTMLVoice (oracle 0) = false →
        (voiceHandler true audio (some H) transcript oracle).html = none
        ∧ (voiceHandler true audio (some H) transcript oracle).message = oracle 0) := by
  have htr : strTruthy H = true := by simp [strTruthy, hH]
  refine ⟨?_, ?_, ?_⟩
  · refine ⟨⟨chatModPromptA msg H, msg, 0.7, 4000⟩,
      ⟨chatModPromptA msg H ++ retrySuffix, msg, 0.3, 4000⟩, ?_, ?_, ?_, ?_⟩
    · cases hra : retryAccept (oracle 1) <;>
        simp [chatHandler, hmsg, htr, hkw, h0, hnoHtml, hra, Option.getD]
    · show (0.3 : ℚ) < 0.7
      norm_num
    · show hasSub "You MUST return HTML code only" (chatModPromptA msg H ++ retrySuffix) = true
      rw [hasSub_iff, data_append]
      have hin : "You MUST return HTML code only".data <:+: retrySuffix.data := by decide
      exact hin.trans ⟨(chatModPromptA msg H).data, [], by simp⟩
    · intro hra
      constructor <;>
        simp [chatHandler, hmsg, htr, hkw, h0, hnoHtml, hra, Option.getD]
  · intro transcript audio ha
    simp only [voiceHandler, ha, Bool.true_eq_false, if_false, if_neg (by simp : ¬(true = false))]
    split <;> split <;> rfl
  · intro transcript audio ha hkt hnv
    constructor <;> simp [voiceHandler, ha, htr, hkt, hnv, h0]

/-- C1 witness: with a prose-only completion stub, a concrete modification
request with non-empty `currentHTML` satisfies every hypothesis, and the
conclusion holds at those inputs. -/
theorem c1_single_retry_witness :
    ("<p>x</p>" : String) ≠ ""
    ∧ trimStr "make the header yellow" ≠ ""
    ∧ isExcalidrawRequest "make the header yellow" = false
    ∧ proseOracle 0 ≠ ""
    ∧ containsHTMLChat (proseOracle 0) = false
    ∧ ((∃ c0 c1 : ChatCall,
        (chatHandler true (some (.str "make the header yellow")) (some "<p>x</p>")
          proseOracle).calls = [c0, c1]
        ∧ c1.temperature < c0.temperature
        ∧ hasSub "You MUST return HTML code only" c1.systemPrompt = true
        ∧ (retryAccept (proseOracle 1) = false →
            (chatHandler true (some (.str "make the header yellow")) (some "<p>x</p>")
              proseOracle).html = none
            ∧ (chatHandler true (some (.str "make the header yellow")) (some "<p>x</p>")
                proseOracle).message = proseOracle 0))
      ∧ (∀ transcript audio, strTruthy (audio.getD "") = true →
          (voiceHandler true audio (some "<p>x</p>") transcript proseOracle).calls.length = 1)
      ∧ (∀ transcript audio, strTruthy (audio.getD "") = true →
          isExcalidrawRequest transcript = false →
          containsHTMLVoice (proseOracle 0) = false →
          (voiceHandler true audio (some "<p>x</p>") transcript proseOracle).html = none
          ∧ (voiceHandler true audio (some "<p>x</p>") transcript proseOracle).message =
              proseOracle 0)) :=
  ⟨by decide, by decide, by decide, by decide, by decide,
    c1_single_retry_then_fallback "make the header yellow" "<p>x</p>" proseOracle
      (by decide) (by decide) (by decide) (by decide) (by decide)⟩

/-- C9: the preview document built from a received payload inlines the css
field inside a `<style>` element, places the html field at the start of the
body content, emits a `<script>` element exactly when the js field is
non-whitespace, and defaults each absent field to the empty string. -/
theorem c9_renderable_document (p : GenPayload) :
    hasSub ("<style>" ++ p.css.getD "" ++ "</style>") (renderableDoc p) = true
    ∧ hasSub ("<body>" ++ p.html.getD "" ++ scriptFragment (p.js.getD "") ++ "</body>")
        (renderableDoc p) = true
    ∧ (trimStr (p.js.getD "") = "" → scriptFragment (p.js.getD "") = "")
    ∧ (trimStr (p.js.getD "") ≠ "" →
        scriptFragment (p.js.getD "") =
          "<script type=\"module\">\n" ++ p.js.getD "" ++ "\n</script>"
        ∧ startsWithStr "<script" (scriptFragment (p.js.getD "")) = true)
    ∧ renderableDoc ⟨none, none, none⟩ = renderableDoc ⟨some "", some "", some ""⟩ := by
  have h1 : ("<!DOCTYPE html><html lang=\"en\"><head><meta charset=\"utf-8\" />" : String) ++
      "<style>" = "<!DOCTYPE html><html lang=\"en\"><head><meta charset=\"utf-8\" /><style>" := by
    decide
  have h2 : ("</style>" : String) ++ "</head><body>" = "</style></head><body>" := by decide
  have h3 : ("</style></head>" : String) ++ "<body>" = "</style></head><body>" := by decide
  have h4 : ("</body>" : String) ++ "</html>" = "</body></html>" := by decide
  refine ⟨?_, ?_, ?_, ?_, rfl⟩
  · rw [hasSub_iff]
    refine ⟨("<!DOCTYPE html><html lang=\"en\"><head><meta charset=\"utf-8\" />" : String).data,
      (("</head><body>" ++ p.html.getD "" ++ scriptFragment (p.js.getD "") ++
        "</body></html>" : String)).data, ?_⟩
    unfold renderableDoc
    rw [← h1, ← h2]
    simp [data_append, List.append_assoc]
  · rw [hasSub_iff]
    refine ⟨(("<!DOCTYPE html><html lang=\"en\"><head><meta charset=\"utf-8\" /><style>" ++
        p.css.getD "" ++ "</style></head>" : String)).data,
      ("</html>" : String).data, ?_⟩
    unfold renderableDoc
    rw [← h3, ← h4]
    simp [data_append, List.append_assoc]
  · intro h
    simp [scriptFragment, strTruthy, h]
  · intro h
    have hs : strTruthy (trimStr (p.js.getD "")) = true := by
      simp [strTruthy, h]
    refine ⟨by simp [scriptFragment, hs], ?_⟩
    simp only [scriptFragment, hs, if_true]
    unfold startsWithStr
    rw [data_append, data_append, List.isPrefixOf_iff_prefix]
    exact (show ("<script" : String).data <+: ("<script type=\"module\">\n" : String).data by
      decide).trans ( List.prefix_append _ _)

/-- C9 witness: a concrete payload with non-whitespace js yields the inline
style block and the module script element. -/
theorem c9_renderable_witness :
    trimStr "console.log(1)" ≠ ""
    ∧ hasSub ("<style>" ++ "b \x7b color: red \x7d" ++ "</style>")
        (renderableDoc ⟨some "<h1>t</h1>", some "b \x7b color: red \x7d",
          some "console.log(1)"⟩) = true
    ∧ scriptFragment "console.log(1)" =
        "<script type=\"module\">\nconsole.log(1)\n</script>" := by
  refine ⟨by decide, ?_, ?_⟩
  · exact (c9_renderable_document
      ⟨some "<h1>t</h1>", some "b \x7b color: red \x7d", some "console.log(1)"⟩).1
  · exact ((c9_renderable_document
      ⟨some "<h1>t</h1>", some "b \x7b color: red \x7d", some "console.log(1)"⟩).2.2.2.1
      (by decide)).1

theorem extractLoop_some :
    ∀ (l : List Char) (st : Int × Bool × Bool) (acc r : List Char),
      extractLoop l st acc = some r →
      ∃ p suf, l = p ++ suf ∧ p ≠ [] ∧ r = acc.reverse ++ p
        ∧ (List.foldl scanStep st p).1 = 0
        ∧ ∀ q, q <+: p → q ≠ [] → q ≠ p → (List.foldl scanStep st q).1 ≠ 0 := by
  intro l
  induction l with
  | nil => intro st acc r h; simp [extractLoop] at h
  | cons c rest ih =>
    intro st acc r h
    simp only [extractLoop] at h
    split at h
    · rename_i h0
      refine ⟨[c], rest, rfl, by simp, ?_, by simpa [List.foldl] using h0, ?_⟩
      · rw [← Option.some.injEq] at *
        simpa [List.reverse_cons] using h.symm
      · intro q hq hqne hqp
        obtain ⟨tl, htl⟩ := hq
        cases q with
        | nil => exact absurd rfl hqne
        | cons a q' =>
          simp only [List.cons_append, List.cons.injEq] at htl
          obtain ⟨rfl, htl2⟩ := htl
          have hq0 : q' = [] := by
            cases q' with
            | nil => rfl
            | cons b q'' => simp at htl2
          exact absurd (by rw [hq0]) hqp
    · rename_i h0
      obtain ⟨p, suf, hl, hpne, hr, hfold, hmin⟩ := ih (scanStep st c) (c :: acc) r h
      refine ⟨c :: p, suf, by rw [List.cons_append, hl], by simp, ?_, ?_, ?_⟩
      · rw [hr]
        simp [List.reverse_cons, List.append_assoc]
      · simpa [List.foldl] using hfold
      · intro q hq hqne hqp
        cases q with
        | nil => exact absurd rfl hqne
        | cons a q' =>
          rw [List.cons_prefix_cons] at hq
          obtain ⟨rfl, hq'⟩ := hq
          cases q' with
          | nil => simpa [List.foldl] using h0
          | cons b q'' =>
            have hne2 : (b :: q'') ≠ p := by
              intro he
              exact hqp (by rw [he])
            simpa [List.foldl] using hmin (b :: q'') hq' (by simp) hne2

theorem extractLoop_none :
    ∀ (l : List Char) (st : Int × Bool × Bool) (acc : List Char),
      extractLoop l st acc = none →
      ∀ q, q <+: l → q ≠ [] → (List.foldl scanStep st q).1 ≠ 0 := by
  intro l
  induction l with
  | nil =>
    intro st acc _ q hq hqne
    rw [List.prefix_nil] at hq
    exact absurd hq hqne
  | cons c rest ih =>
    intro st acc h q hq hqne
    simp only [extractLoop] at h
    split at h
    · exact absurd h (by simp)
    · rename_i h0
      cases q with
      | nil => exact absurd rfl hqne
      | cons a q' =>
        rw [List.cons_prefix_cons] at hq
        obtain ⟨rfl, hq'⟩ := hq
        cases q' with
        | nil => simpa [List.foldl] using h0
        | cons b q'' =>
          simpa [List.foldl] using ih _ _ h (b :: q'') hq' (by simp)

theorem head_of_append_left {p suf : List Char} (hp : p ≠ []) :
    (p ++ suf).head? = p.head? := by
  cases p with
  | nil => exact absurd rfl hp
  | cons a t => rfl

/-- C5: `extractJsonObject` either returns no match — when the text has no
opening brace, or the depth never returns to zero on the scan that starts at
the first brace — or returns the substring of the text from the first brace
to the matching closing brace, where depth counting (`scanStep`) ignores
braces inside string mode and a backslash escapes exactly the next
character: the result starts at the first brace (nothing before it is a
brace), its scan depth is zero exactly at its end and nonzero on every
proper prefix. In particular the nested-brace-in-string example extracts
exactly the object, and a brace-free text has no match. -/
theorem c5_extractJsonObject_spec :
    (∀ t : String,
      (extractJsonObject t = none →
        ('{' ∉ t.data ∨
          ∀ q, q <+: t.data.dropWhile (fun c => !(c = '{')) → q ≠ [] → scanDepth q ≠ 0))
      ∧ (∀ s, extractJsonObject t = some s →
          ∃ pre suf, t.data = pre ++ s.data ++ suf ∧ '{' ∉ pre
            ∧ s.data.head? = some '{'
            ∧ scanDepth s.data = 0
            ∧ ∀ q, q <+: s.data → q ≠ [] → q ≠ s.data → scanDepth q ≠ 0))
    ∧ extractJsonObject "prefix \x7b\"a\": \"b\x7bc\x7d\"\x7d suffix" =
        some "\x7b\"a\": \"b\x7bc\x7d\"\x7d"
    ∧ extractJsonObject "no braces here" = none := by
  refine ⟨?_, by decide, by decide⟩
  intro t
  constructor
  · intro hnone
    simp only [extractJsonObject] at hnone
    by_cases hdw : t.data.dropWhile (fun c => !(c = '{')) = []
    · left
      intro hmem
      have := List.dropWhile_eq_nil_iff.mp hdw '{' hmem
      simp at this
    · right
      rw [if_neg hdw, Option.map_eq_none'] at hnone
      intro q hq hqne
      exact extractLoop_none _ _ _ hnone q hq hqne
  · intro s hs
    simp only [extractJsonObject] at hs
    by_cases hdw : t.data.dropWhile (fun c => !(c = '{')) = []
    · rw [if_pos hdw] at hs
      exact absurd hs (by simp)
    · rw [if_neg hdw, Option.map_eq_some'] at hs
      obtain ⟨cs, hloop, hmk⟩ := hs
      obtain ⟨p, suf, hl, hpne, hr, hfold, hmin⟩ := extractLoop_some _ _ _ _ hloop
      have hsdata : s.data = p := by
        rw [← hmk]
        simpa using hr
      refine ⟨t.data.takeWhile (fun c => !(c = '{')), suf, ?_, ?_, ?_, ?_, ?_⟩
      · rw [hsdata, List.append_assoc, ← hl, List.takeWhile_append_dropWhile]
      · intro hmem
        have := List.mem_takeWhile_imp hmem
        simp at this
      · rw [hsdata, ← @head_of_append_left p suf hpne, ← hl]
        cases hh : (t.data.dropWhile (fun c => !(c = '{'))).head? with
        | none =>
          cases hll : t.data.dropWhile (fun c => !(c = '{')) with
          | nil => exact absurd hll hdw
          | cons a tl => rw [hll] at hh; simp at hh
        | some a =>
          have := dropWhile_head_not _ _ _ hh
          simp only [Bool.not_eq_true'] at this
          have ha : a = '{' := by simpa using this
          rw [ha]
      · rw [hsdata]
        exact hfold
      · rw [hsdata]
        exact hmin

/-- C5 witness: the general characterization, instantiated at the example
text, yields the balanced-extraction facts for the concrete result. -/
theorem c5_extractJsonObject_witness :
    extractJsonObject "prefix \x7b\"a\": \"b\x7bc\x7d\"\x7d suffix" =
      some "\x7b\"a\": \"b\x7bc\x7d\"\x7d"
    ∧ ∃ pre suf,
        ("prefix \x7b\"a\": \"b\x7bc\x7d\"\x7d suffix" : String).data =
          pre ++ ("\x7b\"a\": \"b\x7bc\x7d\"\x7d" : String).data ++ suf
        ∧ '{' ∉ pre
        ∧ ("\x7b\"a\": \"b\x7bc\x7d\"\x7d" : String).data.head? = some '{'
        ∧ scanDepth ("\x7b\"a\": \"b\x7bc\x7d\"\x7d" : String).data = 0
        ∧ ∀ q, q <+: ("\x7b\"a\": \"b\x7bc\x7d\"\x7d" : String).data → q ≠ [] →
            q ≠ ("\x7b\"a\": \"b\x7bc\x7d\"\x7d" : String).data → scanDepth q ≠ 0 :=
  ⟨(c5_extractJsonObject_spec).2.1,
    ((c5_extractJsonObject_spec).1 "prefix \x7b\"a\": \"b\x7bc\x7d\"\x7d suffix").2
      "\x7b\"a\": \"b\x7bc\x7d\"\x7d" (c5_extractJsonObject_spec).2.1⟩

theorem checkDoc_ok {d d' : UIDocument} {att att' : List String}
    (h : checkDoc d att = (.ok d', att')) : d'.html ≠ "" := by
  unfold checkDoc at h
  split at h
  · simp at h
  · rename_i hne
    have hd : d = d' := by
      have h1 := congrArg Prod.fst h
      simpa using h1
    subst hd
    exact hne

theorem normalizeT_ok_html {t : String} {d : UIDocument} {att : List String}
    (h : normalizeT t = (.ok d, att)) : d.html ≠ "" := by
  unfold normalizeT normalizeCore at h
  split at h
  · split at h
    · exact checkDoc_ok h
    · simp at h
  · split at h
    · split at h
      · split at h
        · exact checkDoc_ok h
        · simp at h
      · simp at h
    · simp at h

/-- C2: when the provider reports the completion was truncated by the token
budget (`Incomplete` with reason `length`), `generateFromImage` fails with
the dedicated token-budget error kind, its message names the
`OPENAI_RESPONSES_MAX_TOKENS` configuration knob, and no payload is ever
handed to the JSON parser. -/
theorem c2_truncation_distinct_error (modelId : String) :
    ∃ e : GenError,
      generateFromImage modelId (.incomplete "length") = (.error e, [])
      ∧ e.kind = .tokenBudget
      ∧ hasSub "OPENAI_RESPONSES_MAX_TOKENS" e.message = true :=
  ⟨⟨.tokenBudget,
    "The completion was truncated by the token budget; raise OPENAI_RESPONSES_MAX_TOKENS to allow longer outputs."⟩,
    rfl, rfl, by decide⟩

/-- C6: every image-to-UI generation result is either a success carrying the
four fields — html, css, js and the model identifier — with html non-empty,
or an error carrying a message. -/
theorem c6_image_response_shape (modelId : String) (result : CompletionResult) :
    (∃ d : GenSuccess, (generateFromImage modelId result).1 = .ok d
      ∧ d.html ≠ "" ∧ d.modelIdentifier = modelId)
    ∨ (∃ e : GenError, (generateFromImage modelId result).1 = .error e) := by
  cases result with
  | transportError m => exact Or.inr ⟨_, rfl⟩
  | refused r => exact Or.inr ⟨_, rfl⟩
  | incomplete reason =>
    right
    by_cases hr : reason = "length"
    · subst hr
      exact ⟨_, rfl⟩
    · refine ⟨⟨.malformedOutput, "The completion ended early: " ++ reason⟩, ?_⟩
      simp [generateFromImage, hr]
  | completed text =>
    rcases hn : normalizeT text with ⟨r, att⟩
    cases r with
    | error e =>
      right
      refine ⟨e, ?_⟩
      simp [generateFromImage, hn]
    | ok d =>
      left
      refine ⟨⟨d.html, d.css, d.js, modelId⟩, ?_, normalizeT_ok_html hn, rfl⟩
      simp [generateFromImage, hn]

end FrameForge
